import Mathlib

/-!
Shallow embedding of the community-detection formulation code
(max_community.py, connected_max_community.py, k_community.py,
connected_k_community.py).  The adjacency matrix is a list of rows of
integer entries; the external MIP solver is modelled by a record carrying
the terminal status it reports together with the variable assignment it
hands back.  Feasibility predicates transcribe, constraint by constraint,
the models the Python code builds.
-/

/-- Entry A[i][j] of the adjacency matrix (0 outside the stored rows). -/
def entry (A : List (List Int)) (i j : Nat) : Int :=
  (A.getD i []).getD j 0

/-- `assert A.shape[0] == A.shape[1]`: every row as long as the column count. -/
def isSquare (A : List (List Int)) : Bool :=
  A.all fun r => r.length == A.length

/-- `assert (A == A.T).all()`: entrywise symmetry. -/
def isSymmetric (A : List (List Int)) : Bool :=
  (List.range A.length).all fun i =>
    (List.range A.length).all fun j => entry A i j == entry A j i

/-- The matrix has 0/1 entries. -/
def ZeroOne (A : List (List Int)) : Prop :=
  ∀ i < A.length, ∀ j < A.length, entry A i j = 0 ∨ entry A i j = 1

/-- A single-index assignment is binary on the first n variables. -/
def BinaryOn (n : Nat) (x : Nat → Int) : Prop :=
  ∀ i < n, x i = 0 ∨ x i = 1

/-- A vertex-by-community assignment is binary. -/
def BinaryOn2 (n k : Nat) (x : Nat → Nat → Int) : Prop :=
  ∀ i < n, ∀ p < k, x i p = 0 ∨ x i p = 1

/-- An interaction table is binary. -/
def BinaryOn4 (n k : Nat) (w : Nat → Nat → Nat → Nat → Int) : Prop :=
  ∀ i < n, ∀ j < n, ∀ p < k, ∀ q < k, w i j p q = 0 ∨ w i j p q = 1

/-- `quicksum(x[i] for i in V)`. -/
def sumX (n : Nat) (x : Nat → Int) : Int :=
  ∑ i in Finset.range n, x i

/-- `d_S = quicksum(A[u, v] * x[v] for v in V if u != v)`. -/
def dS (A : List (List Int)) (x : Nat → Int) (u : Nat) : Int :=
  ∑ v in Finset.range A.length, if v = u then 0 else entry A u v * x v

/-- `d_not_S = quicksum(A[u, v] * (1 - x[v]) for v in V if u != v)`. -/
def dnotS (A : List (List Int)) (x : Nat → Int) (u : Nat) : Int :=
  ∑ v in Finset.range A.length, if v = u then 0 else entry A u v * (1 - x v)

/-- The model of max_community.py: size bounds plus the indicator-guarded
proportional-density inequality for each vertex. -/
def maxCommFeasible (A : List (List Int)) (x : Nat → Int) : Prop :=
  BinaryOn A.length x ∧
  2 ≤ sumX A.length x ∧
  sumX A.length x ≤ (A.length : Int) - 1 ∧
  ∀ u < A.length, x u = 1 →
    dnotS A x u * (sumX A.length x - 1) ≤
      dS A x u * ((A.length : Int) - sumX A.length x)

/-- `quicksum(f[j, i] for j in V if A[j, i] == 1)`. -/
def inflow (A : List (List Int)) (f : Nat → Nat → ℚ) (i : Nat) : ℚ :=
  ∑ j in Finset.range A.length, if entry A j i = 1 then f j i else 0

/-- `quicksum(f[i, j] for j in V if A[i, j] == 1)`. -/
def outflow (A : List (List Int)) (f : Nat → Nat → ℚ) (i : Nat) : ℚ :=
  ∑ j in Finset.range A.length, if entry A i j = 1 then f i j else 0

/-- The model of connected_max_community.py: the max-community constraints
together with the root, flow-conservation and flow-capacity constraints. -/
def connMaxFeasible (A : List (List Int)) (x : Nat → Int) (f : Nat → Nat → ℚ) : Prop :=
  BinaryOn A.length x ∧
  (∀ i < A.length, ∀ j < A.length, 0 ≤ f i j) ∧
  2 ≤ sumX A.length x ∧
  sumX A.length x ≤ (A.length : Int) - 1 ∧
  x 0 = 1 ∧
  (∀ i < A.length, i ≠ 0 → inflow A f i = outflow A f i) ∧
  (∀ i < A.length, ∀ j < A.length, entry A i j = 1 →
      f i j ≤ (x i : ℚ) ∧ f i j ≤ (x j : ℚ)) ∧
  ∀ u < A.length, x u = 1 →
    dnotS A x u * (sumX A.length x - 1) ≤
      dS A x u * ((A.length : Int) - sumX A.length x)

/-- `N_C = quicksum(A[i, j1] * quicksum(w[j1, j2, p, q] for j2 in V) for j1 in V)`. -/
def interaction (A : List (List Int)) (w : Nat → Nat → Nat → Nat → Int)
    (i p q : Nat) : Int :=
  ∑ j1 in Finset.range A.length,
    entry A i j1 * ∑ j2 in Finset.range A.length, w j1 j2 p q

/-- `correction = quicksum(x[l, q] * A[i, l] for l in V)`. -/
def correction (A : List (List Int)) (x : Nat → Nat → Int) (i q : Nat) : Int :=
  ∑ l in Finset.range A.length, x l q * entry A i l

/-- The three linking constraints of the boolean-product linearizer:
`w <= x1`, `w <= x2`, `w >= x1 + x2 - 1`. -/
def linkOK (x1 x2 w : Int) : Prop :=
  w ≤ x1 ∧ w ≤ x2 ∧ x1 + x2 - 1 ≤ w

/-- The model of k_community.py: density indicators, linking, community
sizes and the partition constraint. -/
def kCommFeasible (A : List (List Int)) (k : Nat)
    (x : Nat → Nat → Int) (w : Nat → Nat → Nat → Nat → Int) : Prop :=
  BinaryOn2 A.length k x ∧
  BinaryOn4 A.length k w ∧
  (∀ i < A.length, ∀ p < k, ∀ q < k, p ≠ q → x i p = 1 →
      interaction A w i q p - correction A x i q ≤ interaction A w i p q) ∧
  (∀ j1 < A.length, ∀ j2 < A.length, ∀ p < k, ∀ q < k,
      linkOK (x j1 p) (x j2 q) (w j1 j2 p q)) ∧
  (∀ p < k, 2 ≤ ∑ i in Finset.range A.length, x i p) ∧
  (∀ i < A.length, ∑ p in Finset.range k, x i p = 1)

/-- Per-community inflow `quicksum(f[j, i, p] for j in V if A[j, i] == 1)`. -/
def inflowK (A : List (List Int)) (f : Nat → Nat → Nat → ℚ) (i p : Nat) : ℚ :=
  ∑ j in Finset.range A.length, if entry A j i = 1 then f j i p else 0

/-- Per-community outflow `quicksum(f[i, j, p] for j in V if A[i, j] == 1)`. -/
def outflowK (A : List (List Int)) (f : Nat → Nat → Nat → ℚ) (i p : Nat) : ℚ :=
  ∑ j in Finset.range A.length, if entry A i j = 1 then f i j p else 0

/-- The model of connected_k_community.py: the k-community constraints plus,
for every community, the root constraint `x[0, p] == 1`, flow conservation
and flow capacities. -/
def connKFeasible (A : List (List Int)) (k : Nat)
    (x : Nat → Nat → Int) (w : Nat → Nat → Nat → Nat → Int)
    (f : Nat → Nat → Nat → ℚ) : Prop :=
  kCommFeasible A k x w ∧
  (∀ i < A.length, ∀ j < A.length, ∀ p < k, 0 ≤ f i j p) ∧
  ∀ p < k,
    x 0 p = 1 ∧
    (∀ i < A.length, i ≠ 0 → inflowK A f i p = outflowK A f i p) ∧
    (∀ i < A.length, ∀ j < A.length, entry A i j = 1 →
        f i j p ≤ (x i p : ℚ) ∧ f i j p ≤ (x j p : ℚ))

/-- Decidability of the feasibility predicates, for concrete evaluation. -/
instance (A : List (List Int)) : Decidable (ZeroOne A) := by
  unfold ZeroOne; infer_instance

instance (n : Nat) (x : Nat → Int) : Decidable (BinaryOn n x) := by
  unfold BinaryOn; infer_instance

instance (n k : Nat) (x : Nat → Nat → Int) : Decidable (BinaryOn2 n k x) := by
  unfold BinaryOn2; infer_instance

instance (n k : Nat) (w : Nat → Nat → Nat → Nat → Int) : Decidable (BinaryOn4 n k w) := by
  unfold BinaryOn4; infer_instance

instance (x1 x2 w : Int) : Decidable (linkOK x1 x2 w) := by
  unfold linkOK; infer_instance

instance (A : List (List Int)) (x : Nat → Int) : Decidable (maxCommFeasible A x) := by
  unfold maxCommFeasible; infer_instance

instance (A : List (List Int)) (x : Nat → Int) (f : Nat → Nat → ℚ) :
    Decidable (connMaxFeasible A x f) := by
  unfold connMaxFeasible; infer_instance

set_option synthInstance.maxSize 512 in
instance (A : List (List Int)) (k : Nat) (x : Nat → Nat → Int)
    (w : Nat → Nat → Nat → Nat → Int) : Decidable (kCommFeasible A k x w) := by
  unfold kCommFeasible; infer_instance

set_option synthInstance.maxSize 512 in
instance (A : List (List Int)) (k : Nat) (x : Nat → Nat → Int)
    (w : Nat → Nat → Nat → Nat → Int) (f : Nat → Nat → Nat → ℚ) :
    Decidable (connKFeasible A k x w f) := by
  unfold connKFeasible; infer_instance

/-- Terminal statuses of the external solver. -/
inductive SolveStatus where
  | OPTIMAL
  | FEASIBLE
  | INFEASIBLE
  | TIME_LIMIT
deriving DecidableEq

/-- The values a variant function hands back: a failed `assert`, a plain
message string, a max-community structure, or a community mapping. -/
inductive RunResult where
  | assertionError (msg : String)
  | message (msg : String)
  | maxStructure (members : List Nat) (size : Nat)
  | communities (comms : List (List Nat))
deriving DecidableEq

/-- `[i for i in V if x[i].X > 0.5]` on an integral assignment. -/
def decodeS (n : Nat) (x : Nat → Int) : List Nat :=
  (List.range n).filter fun i => decide (x i = 1)

/-- `{p + 1: [i for i in V if x[i, p].X > 0.5] for p in range(k)}`, with
community p + 1 stored at position p. -/
def decodeK (n k : Nat) (x : Nat → Nat → Int) : List (List Nat) :=
  (List.range k).map fun p => (List.range n).filter fun i => decide (x i p = 1)

/-- What the solver returns to find_max_community: a status and the x values. -/
structure MaxSol where
  status : SolveStatus
  x : Nat → Int

/-- What the solver returns to find_connected_max_community. -/
structure CMaxSol where
  status : SolveStatus
  x : Nat → Int
  f : Nat → Nat → ℚ

/-- What the solver returns to find_k_community. -/
structure KSol where
  status : SolveStatus
  x : Nat → Nat → Int
  w : Nat → Nat → Nat → Nat → Int

/-- What the solver returns to find_connected_k_community. -/
structure CKSol where
  status : SolveStatus
  x : Nat → Nat → Int
  w : Nat → Nat → Nat → Nat → Int
  f : Nat → Nat → Nat → ℚ

/-- Control flow of find_max_community: asserts, the n < 3 gate, then the
status test `model.status == GRB.OPTIMAL`. -/
def find_max_community (A : List (List Int)) (sol : MaxSol) : RunResult :=
  if !(isSquare A) then .assertionError "Adjacency matrix must be square."
  else if !(isSymmetric A) then .assertionError "Adjacency matrix must be symmetric."
  else if A.length < 3 then .message "Graph has less than 3 vertices."
  else match sol.status with
    | .OPTIMAL =>
        .maxStructure (decodeS A.length sol.x) (decodeS A.length sol.x).length
    | _ => .message "Unexpected: No PDS found. Please check the model or graph input."

/-- Control flow of find_connected_max_community (same gates and status
test as the non-connected variant). -/
def find_connected_max_community (A : List (List Int)) (sol : CMaxSol) : RunResult :=
  if !(isSquare A) then .assertionError "Adjacency matrix must be square."
  else if !(isSymmetric A) then .assertionError "Adjacency matrix must be symmetric."
  else if A.length < 3 then .message "Graph has less than 3 vertices."
  else match sol.status with
    | .OPTIMAL =>
        .maxStructure (decodeS A.length sol.x) (decodeS A.length sol.x).length
    | _ => .message "Unexpected: No PDS found. Please check the model or graph input."

/-- Control flow of find_k_community: asserts, the three validation gates in
source order, then `if model.status == GRB.INFEASIBLE` and otherwise the
extraction of communities. -/
def find_k_community (A : List (List Int)) (k : Nat) (sol : KSol) : RunResult :=
  if !(isSquare A) then .assertionError "Adjacency matrix must be square."
  else if !(isSymmetric A) then .assertionError "Adjacency matrix must be symmetric."
  else if A.length < 4 then .message "The graph has less than 4 vertices."
  else if A.length < 2 * k then .message "The number of vertices must be at least 2*k."
  else if k < 2 then .message "k must be at least 2."
  else match sol.status with
    | .INFEASIBLE => .message ("No " ++ toString k ++ "-community exists.")
    | _ => .communities (decodeK A.length k sol.x)

/-- Control flow of find_connected_k_community. -/
def find_connected_k_community (A : List (List Int)) (k : Nat) (sol : CKSol) : RunResult :=
  if !(isSquare A) then .assertionError "Adjacency matrix must be square."
  else if !(isSymmetric A) then .assertionError "Adjacency matrix must be symmetric."
  else if A.length < 4 then .message "The graph has less than 4 vertices."
  else if A.length < 2 * k then .message "The number of vertices must be at least 2*k."
  else if k < 2 then .message "k must be at least 2."
  else match sol.status with
    | .INFEASIBLE => .message ("No connected " ++ toString k ++ "-community exists.")
    | _ => .communities (decodeK A.length k sol.x)

/-- A sound solve of the max-community model: an OPTIMAL status comes with a
feasible assignment. -/
def MaxSound (A : List (List Int)) (sol : MaxSol) : Prop :=
  sol.status = .OPTIMAL → maxCommFeasible A sol.x

/-- A sound solve of the connected-max-community model. -/
def CMaxSound (A : List (List Int)) (sol : CMaxSol) : Prop :=
  sol.status = .OPTIMAL → connMaxFeasible A sol.x sol.f

/-- A sound solve of the k-community model: the solver either certifies
infeasibility or hands back a feasible assignment. -/
def KSound (A : List (List Int)) (k : Nat) (sol : KSol) : Prop :=
  sol.status = .INFEASIBLE ∨ kCommFeasible A k sol.x sol.w

/-- A sound solve of the connected-k-community model. -/
def CKSound (A : List (List Int)) (k : Nat) (sol : CKSol) : Prop :=
  sol.status = .INFEASIBLE ∨ connKFeasible A k sol.x sol.w sol.f

/-- The independent reachability oracle of the spec: one breadth step inside
the community S, beginning from the set R already reached. -/
def expandStep (A : List (List Int)) (S R : List Nat) : List Nat :=
  S.filter fun v => R.contains v || R.any fun u => entry A u v == 1

/-- Vertices of S reachable from the root through edges inside S, computed
by iterating expandStep as many times as there are vertices. -/
def reachList (A : List (List Int)) (S : List Nat) (root : Nat) : List Nat :=
  Nat.iterate (expandStep A S) A.length [root]

/-- d_S(u): the number of edges from u to members of S other than u. -/
def dIn (A : List (List Int)) (S : List Nat) (u : Nat) : Nat :=
  (S.filter fun v => decide (v ≠ u ∧ entry A u v = 1)).length

/-- d_{V minus S}(u): the number of edges from u to vertices outside S. -/
def dOut (A : List (List Int)) (S : List Nat) (u : Nat) : Nat :=
  ((List.range A.length).filter fun v =>
    decide (v ∉ S ∧ v ≠ u ∧ entry A u v = 1)).length

/-- Triangle graph: 3 mutually connected vertices (spec scenario). -/
def triangleA : List (List Int) := [[0,1,1],[1,0,1],[1,1,0]]

/-- Two disjoint edges: 4 vertices, 2 components (spec scenario). -/
def twoEdgesA : List (List Int) := [[0,1,0,0],[1,0,0,0],[0,0,0,1],[0,0,1,0]]

/-- Two disjoint triangles 0-1-2 and 3-4-5 plus the isolated vertex 6. -/
def twoTrianglesA : List (List Int) :=
  [[0,1,1,0,0,0,0],[1,0,1,0,0,0,0],[1,1,0,0,0,0,0],
   [0,0,0,0,1,1,0],[0,0,0,1,0,1,0],[0,0,0,1,1,0,0],[0,0,0,0,0,0,0]]

/-- Path on two vertices (spec scenario for the validation gate). -/
def path2A : List (List Int) := [[0,1],[1,0]]

/-- A non-square matrix. -/
def nonSquareA : List (List Int) := [[0,1,0],[1,0,1]]

/-- A non-symmetric matrix. -/
def nonSymA : List (List Int) := [[0,1,0],[0,0,1],[1,0,0]]

/-- Assignment selecting vertices 0 and 1. -/
def xPair : Nat → Int := fun i => if i < 2 then 1 else 0

/-- Assignment selecting every vertex. -/
def xOnes : Nat → Int := fun _ => 1

/-- Assignment selecting vertices 0 to 5. -/
def xSix : Nat → Int := fun i => if i < 6 then 1 else 0

/-- Assignment putting vertices 0, 1 in community 0 and 2, 3 in community 1. -/
def xTE : Nat → Nat → Int := fun i p =>
  if (i < 2 ∧ p = 0) ∨ (2 ≤ i ∧ i < 4 ∧ p = 1) then 1 else 0

/-- Interaction table matching xTE: the product of the two assignments. -/
def wTE : Nat → Nat → Nat → Nat → Int := fun j1 j2 p q => xTE j1 p * xTE j2 q

/-- The identically-zero single-commodity flow. -/
def zeroFlow : Nat → Nat → ℚ := fun _ _ => 0

/-- The identically-zero per-community flow. -/
def zeroFlowK : Nat → Nat → Nat → ℚ := fun _ _ _ => 0

/-- Counting a filtered range equals summing 0/1 indicator values. -/
theorem filter_length_eq_sum (n : Nat) (P : Nat → Prop) [DecidablePred P] :
    (((List.range n).filter fun v => decide (P v)).length : Int) =
      ∑ v in Finset.range n, if P v then (1 : Int) else 0 := by
  induction n with
  | zero => simp
  | succ m ih =>
      rw [List.range_succ, List.filter_append, List.length_append,
        Finset.sum_range_succ, ← ih]
      by_cases h : P m <;> simp [h]

/-- On a binary assignment the decoded member list has length `sum x`. -/
theorem decodeS_length (n : Nat) (x : Nat → Int) (hb : BinaryOn n x) :
    ((decodeS n x).length : Int) = sumX n x := by
  unfold decodeS sumX
  rw [filter_length_eq_sum]
  refine Finset.sum_congr rfl fun v hv => ?_
  rcases hb v (Finset.mem_range.mp hv) with h | h <;> simp [h]

/-- Membership in the decoded list is exactly assignment value 1. -/
theorem decodeS_mem (n : Nat) (x : Nat → Int) (i : Nat) :
    i ∈ decodeS n x ↔ i < n ∧ x i = 1 := by
  unfold decodeS
  simp [List.mem_filter]

/-- A sum of k nonnegative terms two of which are 1 is at least 2. -/
theorem sum_ge_two_of_two_ones (k : Nat) (g : Nat → Int)
    (hb : ∀ p < k, 0 ≤ g p) (hk : 2 ≤ k) (h0 : g 0 = 1) (h1 : g 1 = 1) :
    2 ≤ ∑ p in Finset.range k, g p := by
  have hsub : ({0, 1} : Finset ℕ) ⊆ Finset.range k := by
    intro p hp
    simp only [Finset.mem_insert, Finset.mem_singleton] at hp
    rcases hp with rfl | rfl <;> (rw [Finset.mem_range]; omega)
  have hpair : ∑ p in ({0, 1} : Finset ℕ), g p = 2 := by
    rw [Finset.sum_pair (by norm_num : (0:ℕ) ≠ 1), h0, h1]; norm_num
  calc (2:ℤ) = ∑ p in ({0, 1} : Finset ℕ), g p := hpair.symm
    _ ≤ ∑ p in Finset.range k, g p := by
        refine Finset.sum_le_sum_of_subset_of_nonneg hsub fun p hp _ => ?_
        exact hb p (Finset.mem_range.mp hp)

/-- The connected k-community model is unsatisfiable once k is at least 2:
the root is forced into every community while each vertex, the root
included, must lie in exactly one. -/
theorem connK_unsat (A : List (List Int)) (k : Nat)
    (x : Nat → Nat → Int) (w : Nat → Nat → Nat → Nat → Int)
    (f : Nat → Nat → Nat → ℚ) (hn : 0 < A.length) (hk : 2 ≤ k) :
    ¬ connKFeasible A k x w f := by
  rintro ⟨⟨hbx, _, _, _, _, hpart⟩, _, hroot⟩
  have h0 : x 0 0 = 1 := (hroot 0 (by omega)).1
  have h1 : x 0 1 = 1 := (hroot 1 (by omega)).1
  have hnn : ∀ p < k, 0 ≤ x 0 p := by
    intro p hp
    rcases hbx 0 hn p hp with h | h <;> omega
  have h2 := sum_ge_two_of_two_ones k (x 0) hnn hk h0 h1
  have h3 := hpart 0 hn
  omega

/-- Bool-predicate form of the counting identity. -/
theorem length_filter_range (n : Nat) (b : Nat → Bool) :
    (((List.range n).filter b).length : Int) =
      ∑ v in Finset.range n, if b v then (1 : Int) else 0 := by
  induction n with
  | zero => simp
  | succ m ih =>
      rw [List.range_succ, List.filter_append, List.length_append,
        Finset.sum_range_succ, ← ih]
      by_cases h : b m <;> simp [h]

/-- On a 0/1 matrix and binary assignment, the edge count into the decoded
set agrees with the linear expression d_S of the model. -/
theorem dIn_decode (A : List (List Int)) (x : Nat → Int) (u : Nat)
    (hb : BinaryOn A.length x) (h01 : ZeroOne A) (hu : u < A.length) :
    (dIn A (decodeS A.length x) u : Int) = dS A x u := by
  unfold dIn decodeS dS
  rw [List.filter_filter]
  rw [length_filter_range]
  refine Finset.sum_congr rfl fun v hv => ?_
  have hv' : v < A.length := Finset.mem_range.mp hv
  by_cases hvu : v = u
  · simp [hvu]
  · rcases h01 u hu v hv' with hA | hA <;>
      rcases hb v hv' with hx | hx <;>
        simp [hvu, hA, hx]

/-- On a 0/1 matrix and binary assignment, the edge count out of the decoded
set agrees with the linear expression d_{V minus S} of the model. -/
theorem dOut_decode (A : List (List Int)) (x : Nat → Int) (u : Nat)
    (hb : BinaryOn A.length x) (h01 : ZeroOne A) (hu : u < A.length) :
    (dOut A (decodeS A.length x) u : Int) = dnotS A x u := by
  unfold dOut dnotS
  rw [length_filter_range]
  refine Finset.sum_congr rfl fun v hv => ?_
  have hv' : v < A.length := Finset.mem_range.mp hv
  by_cases hvu : v = u
  · simp [hvu]
  · have hmem : v ∈ decodeS A.length x ↔ v < A.length ∧ x v = 1 :=
      decodeS_mem A.length x v
    rcases h01 u hu v hv' with hA | hA <;>
      rcases hb v hv' with hx | hx <;>
        simp [hvu, hA, hx, hmem, hv']

/-- Past its validation gates, find_max_community is the status dispatch. -/
theorem find_max_community_eq (A : List (List Int)) (sol : MaxSol)
    (hsq : isSquare A = true) (hsym : isSymmetric A = true) (hn : 3 ≤ A.length) :
    find_max_community A sol =
      match sol.status with
      | .OPTIMAL =>
          .maxStructure (decodeS A.length sol.x) (decodeS A.length sol.x).length
      | _ => .message "Unexpected: No PDS found. Please check the model or graph input." := by
  have h3 : ¬ A.length < 3 := by omega
  simp [find_max_community, hsq, hsym, h3]

/-- Past its validation gates, find_connected_max_community is the status
dispatch. -/
theorem find_connected_max_community_eq (A : List (List Int)) (sol : CMaxSol)
    (hsq : isSquare A = true) (hsym : isSymmetric A = true) (hn : 3 ≤ A.length) :
    find_connected_max_community A sol =
      match sol.status with
      | .OPTIMAL =>
          .maxStructure (decodeS A.length sol.x) (decodeS A.length sol.x).length
      | _ => .message "Unexpected: No PDS found. Please check the model or graph input." := by
  have h3 : ¬ A.length < 3 := by omega
  simp [find_connected_max_community, hsq, hsym, h3]

/-- Past its validation gates, find_k_community is the status dispatch. -/
theorem find_k_community_eq (A : List (List Int)) (k : Nat) (sol : KSol)
    (hsq : isSquare A = true) (hsym : isSymmetric A = true)
    (hn : 4 ≤ A.length) (hnk : 2 * k ≤ A.length) (hk : 2 ≤ k) :
    find_k_community A k sol =
      match sol.status with
      | .INFEASIBLE => .message ("No " ++ toString k ++ "-community exists.")
      | _ => .communities (decodeK A.length k sol.x) := by
  have h4 : ¬ A.length < 4 := by omega
  have h2k : ¬ A.length < 2 * k := by omega
  have hk2 : ¬ k < 2 := by omega
  simp [find_k_community, hsq, hsym, h4, h2k, hk2]

/-- Past its validation gates, find_connected_k_community is the status
dispatch. -/
theorem find_connected_k_community_eq (A : List (List Int)) (k : Nat) (sol : CKSol)
    (hsq : isSquare A = true) (hsym : isSymmetric A = true)
    (hn : 4 ≤ A.length) (hnk : 2 * k ≤ A.length) (hk : 2 ≤ k) :
    find_connected_k_community A k sol =
      match sol.status with
      | .INFEASIBLE => .message ("No connected " ++ toString k ++ "-community exists.")
      | _ => .communities (decodeK A.length k sol.x) := by
  have h4 : ¬ A.length < 4 := by omega
  have h2k : ¬ A.length < 2 * k := by omega
  have hk2 : ¬ k < 2 := by omega
  simp [find_connected_k_community, hsq, hsym, h4, h2k, hk2]

/-- The p-th entry of the decoded mapping is the decoded member list of
community p. -/
theorem decodeK_getD (n k : Nat) (x : Nat → Nat → Int) (p : Nat) (hp : p < k) :
    (decodeK n k x).getD p [] = decodeS n (fun i => x i p) := by
  unfold decodeK decodeS
  rw [List.getD_eq_getElem?_getD, List.getElem?_map, List.getElem?_range hp]
  rfl

/-- A binary row summing to one selects exactly one index. -/
theorem filter_count_eq_one (k : Nat) (g : Nat → Int)
    (hb : ∀ p < k, g p = 0 ∨ g p = 1)
    (hsum : ∑ p in Finset.range k, g p = 1) :
    (((List.range k).filter fun p => decide (g p = 1)).length : Int) = 1 := by
  rw [length_filter_range]
  refine Eq.trans (Finset.sum_congr rfl fun p hp => ?_) hsum
  rcases hb p (Finset.mem_range.mp hp) with hh | hh <;> simp [hh]

/-- On binary values the three linking constraints hold iff w is the
product of the two assignment values. -/
theorem linkOK_iff_mul (x1 x2 w : Int)
    (h1 : x1 = 0 ∨ x1 = 1) (h2 : x2 = 0 ∨ x2 = 1) (hw : w = 0 ∨ w = 1) :
    linkOK x1 x2 w ↔ w = x1 * x2 := by
  rcases h1 with rfl | rfl <;> rcases h2 with rfl | rfl <;>
    rcases hw with rfl | rfl <;> decide

/-- At any feasible point of the k-community model the interaction table is
the product of the two assignment entries. -/
theorem kComm_w_eq_mul (A : List (List Int)) (k : Nat)
    (x : Nat → Nat → Int) (w : Nat → Nat → Nat → Nat → Int)
    (hf : kCommFeasible A k x w) :
    ∀ v1 < A.length, ∀ v2 < A.length, ∀ p < k, ∀ q < k,
      w v1 v2 p q = x v1 p * x v2 q := by
  obtain ⟨hbx, hbw, _, hlink, _, _⟩ := hf
  intro v1 h1 v2 h2 p hp q hq
  exact (linkOK_iff_mul _ _ _ (hbx v1 h1 p hp) (hbx v2 h2 q hq)
    (hbw v1 h1 v2 h2 p hp q hq)).mp (hlink v1 h1 v2 h2 p hp q hq)

/-- C9: for 0/1 values the three linking constraints w ≤ x1, w ≤ x2,
w ≥ x1 + x2 − 1 hold iff w = x1·x2; hence at every integral feasible point
of the k-community models (plain and connected) each interaction variable
equals the conjunction of its two assignment variables. -/
theorem linking_equals_conjunction :
    (∀ x1 x2 w : Int, (x1 = 0 ∨ x1 = 1) → (x2 = 0 ∨ x2 = 1) → (w = 0 ∨ w = 1) →
      (linkOK x1 x2 w ↔ w = x1 * x2)) ∧
    (∀ A k x w, kCommFeasible A k x w →
      ∀ v1 < A.length, ∀ v2 < A.length, ∀ p < k, ∀ q < k,
        w v1 v2 p q = x v1 p * x v2 q) ∧
    (∀ A k x w f, connKFeasible A k x w f →
      ∀ v1 < A.length, ∀ v2 < A.length, ∀ p < k, ∀ q < k,
        w v1 v2 p q = x v1 p * x v2 q) :=
  ⟨linkOK_iff_mul, kComm_w_eq_mul, fun A k x w _ hf => kComm_w_eq_mul A k x w hf.1⟩

/-- C7: on a square symmetric matrix that fails a size precondition, each
variant returns its descriptive validation message for every possible
solver behaviour — the result does not depend on the solver at all. -/
theorem validation_short_circuit (A : List (List Int)) (k : Nat)
    (hsq : isSquare A = true) (hsym : isSymmetric A = true) :
    (A.length < 3 → ∀ sol : MaxSol,
      find_max_community A sol = .message "Graph has less than 3 vertices.") ∧
    (A.length < 3 → ∀ sol : CMaxSol,
      find_connected_max_community A sol = .message "Graph has less than 3 vertices.") ∧
    (A.length < 4 → ∀ sol : KSol,
      find_k_community A k sol = .message "The graph has less than 4 vertices.") ∧
    (A.length < 4 → ∀ sol : CKSol,
      find_connected_k_community A k sol = .message "The graph has less than 4 vertices.") ∧
    (4 ≤ A.length → A.length < 2 * k → ∀ sol : KSol,
      find_k_community A k sol = .message "The number of vertices must be at least 2*k.") ∧
    (4 ≤ A.length → A.length < 2 * k → ∀ sol : CKSol,
      find_connected_k_community A k sol = .message "The number of vertices must be at least 2*k.") ∧
    (4 ≤ A.length → 2 * k ≤ A.length → k < 2 → ∀ sol : KSol,
      find_k_community A k sol = .message "k must be at least 2.") ∧
    (4 ≤ A.length → 2 * k ≤ A.length → k < 2 → ∀ sol : CKSol,
      find_connected_k_community A k sol = .message "k must be at least 2.") := by
  refine ⟨?_, ?_, ?_, ?_, ?_, ?_, ?_, ?_⟩
  · intro h sol
    simp [find_max_community, hsq, hsym, h]
  · intro h sol
    simp [find_connected_max_community, hsq, hsym, h]
  · intro h sol
    simp [find_k_community, hsq, hsym, h]
  · intro h sol
    simp [find_connected_k_community, hsq, hsym, h]
  · intro h4 h2k sol
    have t1 : ¬ A.length < 4 := by omega
    simp [find_k_community, hsq, hsym, t1, h2k]
  · intro h4 h2k sol
    have t1 : ¬ A.length < 4 := by omega
    simp [find_connected_k_community, hsq, hsym, t1, h2k]
  · intro h4 h2k hk sol
    have t1 : ¬ A.length < 4 := by omega
    have t2 : ¬ A.length < 2 * k := by omega
    simp [find_k_community, hsq, hsym, t1, t2, hk]
  · intro h4 h2k hk sol
    have t1 : ¬ A.length < 4 := by omega
    have t2 : ¬ A.length < 2 * k := by omega
    simp [find_connected_k_community, hsq, hsym, t1, t2, hk]

/-- Witness for C7 at the spec scenario: the 2-vertex path with, for the
k-variants, k = 2. -/
theorem validation_short_circuit_witness :
    (path2A.length < 3 → ∀ sol : MaxSol,
      find_max_community path2A sol = .message "Graph has less than 3 vertices.") ∧
    (path2A.length < 3 → ∀ sol : CMaxSol,
      find_connected_max_community path2A sol = .message "Graph has less than 3 vertices.") ∧
    (path2A.length < 4 → ∀ sol : KSol,
      find_k_community path2A 2 sol = .message "The graph has less than 4 vertices.") ∧
    (path2A.length < 4 → ∀ sol : CKSol,
      find_connected_k_community path2A 2 sol = .message "The graph has less than 4 vertices.") ∧
    (4 ≤ path2A.length → path2A.length < 2 * 2 → ∀ sol : KSol,
      find_k_community path2A 2 sol = .message "The number of vertices must be at least 2*k.") ∧
    (4 ≤ path2A.length → path2A.length < 2 * 2 → ∀ sol : CKSol,
      find_connected_k_community path2A 2 sol = .message "The number of vertices must be at least 2*k.") ∧
    (4 ≤ path2A.length → 2 * 2 ≤ path2A.length → 2 < 2 → ∀ sol : KSol,
      find_k_community path2A 2 sol = .message "k must be at least 2.") ∧
    (4 ≤ path2A.length → 2 * 2 ≤ path2A.length → 2 < 2 → ∀ sol : CKSol,
      find_connected_k_community path2A 2 sol = .message "k must be at least 2.") :=
  validation_short_circuit path2A 2 (by decide) (by decide)

/-- C8: a non-square or non-symmetric matrix makes all four variants fail
their assert (the ValidationError) for every possible solver behaviour, so
the failure precedes any solver interaction and no normal result is
returned. -/
theorem assert_on_malformed (A : List (List Int)) (k : Nat)
    (h : isSquare A = false ∨ isSymmetric A = false) :
    (∀ sol : MaxSol, ∃ m, find_max_community A sol = .assertionError m) ∧
    (∀ sol : CMaxSol, ∃ m, find_connected_max_community A sol = .assertionError m) ∧
    (∀ sol : KSol, ∃ m, find_k_community A k sol = .assertionError m) ∧
    (∀ sol : CKSol, ∃ m, find_connected_k_community A k sol = .assertionError m) := by
  refine ⟨?_, ?_, ?_, ?_⟩
  · intro sol
    cases hs : isSquare A
    · exact ⟨"Adjacency matrix must be square.", by simp [find_max_community, hs]⟩
    · rcases h with h | h
      · rw [hs] at h; cases h
      · exact ⟨"Adjacency matrix must be symmetric.", by simp [find_max_community, hs, h]⟩
  · intro sol
    cases hs : isSquare A
    · exact ⟨"Adjacency matrix must be square.", by simp [find_connected_max_community, hs]⟩
    · rcases h with h | h
      · rw [hs] at h; cases h
      · exact ⟨"Adjacency matrix must be symmetric.", by simp [find_connected_max_community, hs, h]⟩
  · intro sol
    cases hs : isSquare A
    · exact ⟨"Adjacency matrix must be square.", by simp [find_k_community, hs]⟩
    · rcases h with h | h
      · rw [hs] at h; cases h
      · exact ⟨"Adjacency matrix must be symmetric.", by simp [find_k_community, hs, h]⟩
  · intro sol
    cases hs : isSquare A
    · exact ⟨"Adjacency matrix must be square.", by simp [find_connected_k_community, hs]⟩
    · rcases h with h | h
      · rw [hs] at h; cases h
      · exact ⟨"Adjacency matrix must be symmetric.", by simp [find_connected_k_community, hs, h]⟩

/-- Witness for C8 at a concrete non-square matrix. -/
theorem assert_on_malformed_witness :
    (∀ sol : MaxSol, ∃ m, find_max_community nonSquareA sol = .assertionError m) ∧
    (∀ sol : CMaxSol, ∃ m, find_connected_max_community nonSquareA sol = .assertionError m) ∧
    (∀ sol : KSol, ∃ m, find_k_community nonSquareA 2 sol = .assertionError m) ∧
    (∀ sol : CKSol, ∃ m, find_connected_k_community nonSquareA 2 sol = .assertionError m) :=
  assert_on_malformed nonSquareA 2 (Or.inl (by decide))

/-- C4: for every validated input the connected-k model is unsatisfiable —
the root constraints x[0,p] = 1 for all p clash with the exactly-one
constraint at vertex 0 — so with a sound solver the function always returns
the no-connected-k-community message. -/
theorem connected_k_reports_infeasible (A : List (List Int)) (k : Nat) (sol : CKSol)
    (hsq : isSquare A = true) (hsym : isSymmetric A = true)
    (hn : 4 ≤ A.length) (hnk : 2 * k ≤ A.length) (hk : 2 ≤ k)
    (hsound : CKSound A k sol) :
    (∀ x w f, ¬ connKFeasible A k x w f) ∧
    find_connected_k_community A k sol =
      .message ("No connected " ++ toString k ++ "-community exists.") := by
  have hun : ∀ x w f, ¬ connKFeasible A k x w f :=
    fun x w f => connK_unsat A k x w f (by omega) hk
  have hst : sol.status = .INFEASIBLE := by
    rcases hsound with h | h
    · exact h
    · exact absurd h (hun _ _ _)
  refine ⟨hun, ?_⟩
  rw [find_connected_k_community_eq A k sol hsq hsym hn hnk hk, hst]

/-- Witness for C4 on the two-disjoint-edges graph with k = 2 and an
INFEASIBLE solver verdict. -/
theorem connected_k_reports_infeasible_witness :
    (∀ x w f, ¬ connKFeasible twoEdgesA 2 x w f) ∧
    find_connected_k_community twoEdgesA 2 ⟨.INFEASIBLE, xTE, wTE, zeroFlowK⟩ =
      .message ("No connected " ++ toString 2 ++ "-community exists.") :=
  connected_k_reports_infeasible twoEdgesA 2 ⟨.INFEASIBLE, xTE, wTE, zeroFlowK⟩
    (by decide) (by decide) (by decide) (by decide) (by decide) (Or.inl rfl)

/-- C3: on the two-disjoint-edges graph with k = 2 the connected-k model is
unsatisfiable (the root is pinned into both communities), so the function
returns the no-connected-k-community message and not the two-edge
partition the spec scenario promises. -/
theorem two_edges_connected_k_bug :
    (∀ x w f, ¬ connKFeasible twoEdgesA 2 x w f) ∧
    find_connected_k_community twoEdgesA 2 ⟨.INFEASIBLE, xTE, wTE, zeroFlowK⟩ =
      .message "No connected 2-community exists." ∧
    RunResult.message "No connected 2-community exists." ≠
      .communities [[0, 1], [2, 3]] := by
  exact ⟨fun x w f => connK_unsat twoEdgesA 2 x w f (by decide) (by decide),
    by decide, by decide⟩

/-- C5: whenever find_max_community returns a dict on a valid input under a
sound solve, the size lies between 2 and n − 1 and every member u
satisfies d_S(u)·card(V minus S) ≥ d_{V minus S}(u)·(card S − 1). -/
theorem max_community_result_bounds (A : List (List Int)) (sol : MaxSol)
    (S : List Nat) (s : Nat)
    (hsq : isSquare A = true) (hsym : isSymmetric A = true)
    (h01 : ZeroOne A) (hn : 3 ≤ A.length) (hsound : MaxSound A sol)
    (hrun : find_max_community A sol = .maxStructure S s) :
    2 ≤ s ∧ s ≤ A.length - 1 ∧
    ∀ u ∈ S, dOut A S u * (s - 1) ≤ dIn A S u * (A.length - s) := by
  rw [find_max_community_eq A sol hsq hsym hn] at hrun
  cases hstatus : sol.status <;> rw [hstatus] at hrun <;> simp at hrun
  obtain ⟨hS, hs⟩ := hrun
  subst hS
  subst hs
  obtain ⟨hb, hge, hle, hdens⟩ := hsound hstatus
  have hlen := decodeS_length A.length sol.x hb
  have h2s : 2 ≤ (decodeS A.length sol.x).length := by omega
  have hsn1 : (decodeS A.length sol.x).length ≤ A.length - 1 := by omega
  refine ⟨h2s, hsn1, ?_⟩
  intro u hu
  obtain ⟨hun, hux⟩ := (decodeS_mem A.length sol.x u).mp hu
  have hineq := hdens u hun hux
  have h1s : 1 ≤ (decodeS A.length sol.x).length := by omega
  have hsle : (decodeS A.length sol.x).length ≤ A.length := by omega
  zify [h1s, hsle]
  rw [dIn_decode A sol.x u hb h01 hun, dOut_decode A sol.x u hb h01 hun, hlen]
  exact hineq

/-- Witness for C5: the triangle with the optimal pair assignment. -/
theorem max_community_result_bounds_witness :
    2 ≤ 2 ∧ 2 ≤ triangleA.length - 1 ∧
    ∀ u ∈ [0, 1],
      dOut triangleA [0, 1] u * (2 - 1) ≤ dIn triangleA [0, 1] u * (triangleA.length - 2) :=
  max_community_result_bounds triangleA ⟨.OPTIMAL, xPair⟩ [0, 1] 2
    (by decide) (by decide) (by decide) (by decide) (fun _ => by decide) (by decide)

/-- C2 counterexample: on the triangle the all-vertices assignment violates
the model (the constraint card S ≤ n − 1 forbids size 3) while the pair
assignment is feasible, and a sound optimal solve decodes to the 2-vertex
structure — not the all-3 structure the spec scenario promises. -/
theorem triangle_not_all_three :
    ¬ maxCommFeasible triangleA xOnes ∧
    maxCommFeasible triangleA xPair ∧
    find_max_community triangleA ⟨.OPTIMAL, xPair⟩ = .maxStructure [0, 1] 2 ∧
    RunResult.maxStructure [0, 1] 2 ≠ .maxStructure [0, 1, 2] 3 :=
  ⟨by decide, by decide, by decide, by decide⟩

/-- C2 amended: on the triangle every dict find_max_community can return
under a sound solve carries exactly 2 of the 3 vertices, never all 3. -/
theorem triangle_max_returns_size_two (sol : MaxSol) (S : List Nat) (s : Nat)
    (hsound : MaxSound triangleA sol)
    (hrun : find_max_community triangleA sol = .maxStructure S s) :
    s = 2 ∧ S.length = 2 ∧ S ≠ [0, 1, 2] := by
  rw [find_max_community_eq triangleA sol (by decide) (by decide) (by decide)] at hrun
  cases hstatus : sol.status <;> rw [hstatus] at hrun <;> simp at hrun
  obtain ⟨hS, hs⟩ := hrun
  subst hS
  subst hs
  obtain ⟨hb, hge, hle, _⟩ := hsound hstatus
  have hlen := decodeS_length triangleA.length sol.x hb
  have h3 : (triangleA.length : Int) = 3 := by decide
  have hs2 : (decodeS triangleA.length sol.x).length = 2 := by omega
  refine ⟨hs2, hs2, ?_⟩
  intro heq
  rw [heq] at hs2
  simp at hs2

/-- Witness for the amended C2. -/
theorem triangle_max_returns_size_two_witness :
    2 = 2 ∧ ([0, 1] : List Nat).length = 2 ∧ ([0, 1] : List Nat) ≠ [0, 1, 2] :=
  triangle_max_returns_size_two ⟨.OPTIMAL, xPair⟩ [0, 1] 2
    (fun _ => by decide) (by decide)

/-- Any feasible point of the k-community model decodes to a mapping with k
communities in which every vertex occurs exactly once and every community
has at least two members. -/
theorem decoded_partition (A : List (List Int)) (k : Nat)
    (x : Nat → Nat → Int) (w : Nat → Nat → Nat → Nat → Int)
    (hf : kCommFeasible A k x w) :
    (decodeK A.length k x).length = k ∧
    (∀ i < A.length,
      ((List.range k).filter fun p =>
        decide (i ∈ (decodeK A.length k x).getD p [])).length = 1) ∧
    (∀ p < k, 2 ≤ ((decodeK A.length k x).getD p []).length) := by
  obtain ⟨hbx, _, _, _, hsz, hpart⟩ := hf
  refine ⟨by simp [decodeK], ?_, ?_⟩
  · intro i hi
    have hcongr : ((List.range k).filter fun p =>
        decide (i ∈ (decodeK A.length k x).getD p [])) =
        ((List.range k).filter fun p => decide (x i p = 1)) := by
      refine List.filter_congr fun p hp => ?_
      have hp' : p < k := List.mem_range.mp hp
      rw [decodeK_getD A.length k x p hp']
      simp [decodeS_mem, hi]
    rw [hcongr]
    have := filter_count_eq_one k (x i) (fun p hp => hbx i hi p hp) (hpart i hi)
    exact_mod_cast this
  · intro p hp
    rw [decodeK_getD A.length k x p hp]
    have hb : BinaryOn A.length fun i => x i p := fun i hi => hbx i hi p hp
    have hlen := decodeS_length A.length (fun i => x i p) hb
    have h2 : (2:Int) ≤ sumX A.length fun i => x i p := hsz p hp
    omega

/-- C6: whenever find_k_community or find_connected_k_community returns a
community mapping on a validated input under a sound solve, the mapping has
k communities, every vertex lies in exactly one of them, and each community
has at least two members. -/
theorem k_community_partition (A : List (List Int)) (k : Nat)
    (sol : KSol) (csol : CKSol) (m mc : List (List Nat))
    (hsq : isSquare A = true) (hsym : isSymmetric A = true)
    (hn : 4 ≤ A.length) (hnk : 2 * k ≤ A.length) (hk : 2 ≤ k)
    (hsound : KSound A k sol) (hcsound : CKSound A k csol) :
    (find_k_community A k sol = .communities m →
      m.length = k ∧
      (∀ i < A.length,
        ((List.range k).filter fun p => decide (i ∈ m.getD p [])).length = 1) ∧
      (∀ p < k, 2 ≤ (m.getD p []).length)) ∧
    (find_connected_k_community A k csol = .communities mc →
      mc.length = k ∧
      (∀ i < A.length,
        ((List.range k).filter fun p => decide (i ∈ mc.getD p [])).length = 1) ∧
      (∀ p < k, 2 ≤ (mc.getD p []).length)) := by
  constructor
  · intro hrun
    rw [find_k_community_eq A k sol hsq hsym hn hnk hk] at hrun
    have hfeas : kCommFeasible A k sol.x sol.w := by
      rcases hsound with hst | hf
      · rw [hst] at hrun
        exact absurd hrun (by simp)
      · exact hf
    have hm : m = decodeK A.length k sol.x := by
      cases hstatus : sol.status <;> rw [hstatus] at hrun <;> simp at hrun <;>
        exact hrun.symm
    subst hm
    exact decoded_partition A k sol.x sol.w hfeas
  · intro hrun
    rcases hcsound with hst | hf
    · rw [find_connected_k_community_eq A k csol hsq hsym hn hnk hk, hst] at hrun
      exact absurd hrun (by simp)
    · exact absurd hf (connK_unsat A k _ _ _ (by omega) hk)

/-- Witness for C6: the two-disjoint-edges graph with k = 2 and the
edge-pair assignment. -/
theorem k_community_partition_witness :
    (find_k_community twoEdgesA 2 ⟨.OPTIMAL, xTE, wTE⟩ = .communities [[0, 1], [2, 3]] →
      ([[0, 1], [2, 3]] : List (List Nat)).length = 2 ∧
      (∀ i < twoEdgesA.length,
        ((List.range 2).filter fun p =>
          decide (i ∈ ([[0, 1], [2, 3]] : List (List Nat)).getD p [])).length = 1) ∧
      (∀ p < 2, 2 ≤ (([[0, 1], [2, 3]] : List (List Nat)).getD p []).length)) ∧
    (find_connected_k_community twoEdgesA 2 ⟨.INFEASIBLE, xTE, wTE, zeroFlowK⟩ =
        .communities [] →
      ([] : List (List Nat)).length = 2 ∧
      (∀ i < twoEdgesA.length,
        ((List.range 2).filter fun p =>
          decide (i ∈ ([] : List (List Nat)).getD p [])).length = 1) ∧
      (∀ p < 2, 2 ≤ (([] : List (List Nat)).getD p []).length)) :=
  k_community_partition twoEdgesA 2 ⟨.OPTIMAL, xTE, wTE⟩
    ⟨.INFEASIBLE, xTE, wTE, zeroFlowK⟩ [[0, 1], [2, 3]] []
    (by decide) (by decide) (by decide) (by decide) (by decide)
    (Or.inr (by decide)) (Or.inl rfl)

/-- C1 (code defect): on the two-triangles-plus-isolated-vertex graph the
assignment selecting vertices 0..5 together with the zero flow satisfies
every constraint of the connected-max model — the flow constraints admit
the zero flow and so certify no reachability — and attains the largest
objective value any feasible point can have, so a sound optimal solve
returns the community 0..5; that community contains vertex 3, which is not
reachable from the root 0 inside the community. -/
theorem connected_max_disconnected_result :
    connMaxFeasible twoTrianglesA xSix zeroFlow ∧
    sumX twoTrianglesA.length xSix = 6 ∧
    (∀ x f, connMaxFeasible twoTrianglesA x f → sumX twoTrianglesA.length x ≤ 6) ∧
    find_connected_max_community twoTrianglesA ⟨.OPTIMAL, xSix, zeroFlow⟩ =
      .maxStructure [0, 1, 2, 3, 4, 5] 6 ∧
    3 ∈ ([0, 1, 2, 3, 4, 5] : List Nat) ∧
    3 ∉ reachList twoTrianglesA [0, 1, 2, 3, 4, 5] 0 := by
  refine ⟨⟨by decide, ?_, by decide, by decide, by decide, ?_, ?_, by decide⟩,
    by decide, ?_, by decide, by decide, by decide⟩
  · intro i _ j _
    simp [zeroFlow]
  · intro i _ _
    unfold inflow outflow zeroFlow
    simp
  · intro i _ j _ _
    have h0 : ∀ v : Nat, (0:ℚ) ≤ ((xSix v : Int) : ℚ) := by
      intro v
      rw [Int.cast_nonneg]
      unfold xSix
      split <;> norm_num
    exact ⟨by simpa [zeroFlow] using h0 i, by simpa [zeroFlow] using h0 j⟩
  · intro x f hf
    have hle := hf.2.2.2.1
    have h7 : ((twoTrianglesA.length : Nat) : Int) = 7 := by decide
    omega

/-- C10 counterexample: a TIME_LIMIT verdict produces the identical result
as a solver-confirmed INFEASIBLE verdict in the max variant, and takes the
success-decoding branch in both k variants. -/
theorem status_conflation :
    find_max_community twoEdgesA ⟨.TIME_LIMIT, xPair⟩ =
      find_max_community twoEdgesA ⟨.INFEASIBLE, xPair⟩ ∧
    find_max_community twoEdgesA ⟨.TIME_LIMIT, xPair⟩ =
      .message "Unexpected: No PDS found. Please check the model or graph input." ∧
    find_k_community twoEdgesA 2 ⟨.TIME_LIMIT, xTE, wTE⟩ =
      .communities [[0, 1], [2, 3]] ∧
    find_connected_k_community twoEdgesA 2 ⟨.TIME_LIMIT, xTE, wTE, zeroFlowK⟩ =
      .communities [[0, 1], [2, 3]] :=
  ⟨by decide, by decide, by decide, by decide⟩

/-- C10 amended: an INFEASIBLE verdict never decodes into a structure — the
max variants answer with the catch-all message and the k variants with
their no-structure message, both distinct from every structure result —
but an indeterminate TIME_LIMIT verdict is not surfaced distinctly: the
max variants return the very same message as for INFEASIBLE and the k
variants take the success-decoding branch. -/
theorem status_outcomes (A : List (List Int)) (k : Nat)
    (sol1 sol2 : MaxSol) (csol1 csol2 : CMaxSol) (ksol : KSol) (cksol : CKSol)
    (hsq : isSquare A = true) (hsym : isSymmetric A = true)
    (hn : 4 ≤ A.length) (hnk : 2 * k ≤ A.length) (hk : 2 ≤ k)
    (h1 : sol1.status = .TIME_LIMIT) (h2 : sol2.status = .INFEASIBLE)
    (h3 : csol1.status = .TIME_LIMIT) (h4 : csol2.status = .INFEASIBLE) :
    (find_max_community A sol1 = find_max_community A sol2 ∧
     find_max_community A sol2 =
       .message "Unexpected: No PDS found. Please check the model or graph input.") ∧
    (find_connected_max_community A csol1 = find_connected_max_community A csol2 ∧
     find_connected_max_community A csol2 =
       .message "Unexpected: No PDS found. Please check the model or graph input.") ∧
    (ksol.status = .INFEASIBLE →
      find_k_community A k ksol = .message ("No " ++ toString k ++ "-community exists.")) ∧
    (cksol.status = .INFEASIBLE →
      find_connected_k_community A k cksol =
        .message ("No connected " ++ toString k ++ "-community exists.")) ∧
    (ksol.status = .TIME_LIMIT →
      find_k_community A k ksol = .communities (decodeK A.length k ksol.x)) ∧
    (cksol.status = .TIME_LIMIT →
      find_connected_k_community A k cksol =
        .communities (decodeK A.length k cksol.x)) ∧
    (∀ msg S s, RunResult.message msg ≠ .maxStructure S s) ∧
    (∀ msg cs, RunResult.message msg ≠ .communities cs) := by
  have hn3 : 3 ≤ A.length := by omega
  refine ⟨⟨?_, ?_⟩, ⟨?_, ?_⟩, ?_, ?_, ?_, ?_, by simp, by simp⟩
  · rw [find_max_community_eq A sol1 hsq hsym hn3,
      find_max_community_eq A sol2 hsq hsym hn3, h1, h2]
  · rw [find_max_community_eq A sol2 hsq hsym hn3, h2]
  · rw [find_connected_max_community_eq A csol1 hsq hsym hn3,
      find_connected_max_community_eq A csol2 hsq hsym hn3, h3, h4]
  · rw [find_connected_max_community_eq A csol2 hsq hsym hn3, h4]
  · intro hst
    rw [find_k_community_eq A k ksol hsq hsym hn hnk hk, hst]
  · intro hst
    rw [find_connected_k_community_eq A k cksol hsq hsym hn hnk hk, hst]
  · intro hst
    rw [find_k_community_eq A k ksol hsq hsym hn hnk hk, hst]
  · intro hst
    rw [find_connected_k_community_eq A k cksol hsq hsym hn hnk hk, hst]

/-- Witness for the amended C10 at concrete solver records. -/
theorem status_outcomes_witness :
    (find_max_community twoEdgesA ⟨.TIME_LIMIT, xPair⟩ =
       find_max_community twoEdgesA ⟨.INFEASIBLE, xPair⟩ ∧
     find_max_community twoEdgesA ⟨.INFEASIBLE, xPair⟩ =
       .message "Unexpected: No PDS found. Please check the model or graph input.") ∧
    (find_connected_max_community twoEdgesA ⟨.TIME_LIMIT, xPair, zeroFlow⟩ =
       find_connected_max_community twoEdgesA ⟨.INFEASIBLE, xPair, zeroFlow⟩ ∧
     find_connected_max_community twoEdgesA ⟨.INFEASIBLE, xPair, zeroFlow⟩ =
       .message "Unexpected: No PDS found. Please check the model or graph input.") ∧
    (KSol.status ⟨.TIME_LIMIT, xTE, wTE⟩ = .INFEASIBLE →
      find_k_community twoEdgesA 2 ⟨.TIME_LIMIT, xTE, wTE⟩ =
        .message ("No " ++ toString 2 ++ "-community exists.")) ∧
    (CKSol.status ⟨.TIME_LIMIT, xTE, wTE, zeroFlowK⟩ = .INFEASIBLE →
      find_connected_k_community twoEdgesA 2 ⟨.TIME_LIMIT, xTE, wTE, zeroFlowK⟩ =
        .message ("No connected " ++ toString 2 ++ "-community exists.")) ∧
    (KSol.status ⟨.TIME_LIMIT, xTE, wTE⟩ = .TIME_LIMIT →
      find_k_community twoEdgesA 2 ⟨.TIME_LIMIT, xTE, wTE⟩ =
        .communities (decodeK twoEdgesA.length 2 xTE)) ∧
    (CKSol.status ⟨.TIME_LIMIT, xTE, wTE, zeroFlowK⟩ = .TIME_LIMIT →
      find_connected_k_community twoEdgesA 2 ⟨.TIME_LIMIT, xTE, wTE, zeroFlowK⟩ =
        .communities (decodeK twoEdgesA.length 2 xTE)) ∧
    (∀ msg S s, RunResult.message msg ≠ .maxStructure S s) ∧
    (∀ msg cs, RunResult.message msg ≠ .communities cs) :=
  status_outcomes twoEdgesA 2 ⟨.TIME_LIMIT, xPair⟩ ⟨.INFEASIBLE, xPair⟩
    ⟨.TIME_LIMIT, xPair, zeroFlow⟩ ⟨.INFEASIBLE, xPair, zeroFlow⟩
    ⟨.TIME_LIMIT, xTE, wTE⟩ ⟨.TIME_LIMIT, xTE, wTE, zeroFlowK⟩
    (by decide) (by decide) (by decide) (by decide) (by decide)
    rfl rfl rfl rfl
